import Mathlib

/-!
Shallow embedding of `src/qiskit_optimization/converters/special_constraint_to_penalty.py`
(`SpecialConstraintToPenalty`), together with the parts of the surrounding data
model the converter consumes.

Numbers are modelled as rationals (`ℚ`): the Python code works with floats, and
every constant occurring in the converter and in the claims is exactly
representable; `float.is_integer()` becomes `Rat.den = 1`, and `math.fsum`
(exact float summation) becomes the exact rational sum.

Sparse coefficient mappings (`LinearExpression.to_dict()` /
`QuadraticExpression.to_dict()` results) are modelled as association lists in
insertion order, matching Python `dict` semantics: `dictGet`/`dictSet`/`dictAdd`
below mirror `d.get(k, 0.0)` / `d[k] = v`.
-/

set_option autoImplicit false

namespace QiskitOpt

/-- Modelled from the spec (§3 Data Model): the variable types of the external
problem model (`qiskit_optimization.problems.variable.Variable.Type`, not under
`src/`): type ∈ \x7bContinuous, Binary, Integer\x7d. -/
inductive VarType where
  | continuous
  | binary
  | integer
  deriving DecidableEq, Repr

/-- Modelled from the spec (§3): a decision variable: identity (name), type and
bounds (bounds meaningful only for Continuous/Integer; the external model gives
binary variables the canonical bounds 0 and 1). -/
structure Variable where
  name : String
  vartype : VarType
  lowerbound : ℚ
  upperbound : ℚ
  deriving DecidableEq, Repr

/-- Modelled from the spec (§3): comparison sense of a constraint, ∈ \x7b≤, =, ≥\x7d
(`Constraint.Sense`, not under `src/`). -/
inductive CmpSense where
  | le
  | eq
  | ge
  deriving DecidableEq, Repr

/-- Modelled from the spec (§3): optimization sense of the objective
(`QuadraticObjective.Sense`, not under `src/`); `value` below gives the numeric
sense multiplier the converter reads at line 94 of the source. -/
inductive ObjSense where
  | minimize
  | maximize
  deriving DecidableEq, Repr

/-- Modelled from the spec (§4.4, Glossary): `ObjSense.value` is +1 for
Minimize and −1 for Maximize (the sense multiplier). -/
def ObjSense.value : ObjSense → Int
  | .minimize => 1
  | .maximize => -1

/-- Modelled from the spec (§3): a linear constraint: linear coefficient
mapping, comparison sense, right-hand side, name. -/
structure LinearConstraint where
  linear : List (Nat × ℚ)
  sense : CmpSense
  rhs : ℚ
  name : String
  deriving DecidableEq, Repr

/-- Modelled from the spec (§3): a quadratic constraint: as a linear constraint
plus a quadratic coefficient mapping over unordered index pairs (stored as
ordered pairs with the convention used by the external model). -/
structure QuadraticConstraint where
  linear : List (Nat × ℚ)
  quadratic : List ((Nat × Nat) × ℚ)
  sense : CmpSense
  rhs : ℚ
  name : String
  deriving DecidableEq, Repr

/-- Modelled from the spec (§3): the objective: sense, constant offset, linear
and quadratic coefficient mappings. -/
structure QuadraticObjective where
  sense : ObjSense
  constant : ℚ
  linear : List (Nat × ℚ)
  quadratic : List ((Nat × Nat) × ℚ)
  deriving DecidableEq, Repr

/-- Modelled from the spec (§3): a problem: name, ordered variables, one
objective, ordered linear constraints, ordered quadratic constraints. -/
structure QuadraticProgram where
  name : String
  vars : List Variable
  objective : QuadraticObjective
  linearConstraints : List LinearConstraint
  quadraticConstraints : List QuadraticConstraint
  deriving DecidableEq, Repr

/-- `get_num_vars()` of the external problem model: the number of variables. -/
def QuadraticProgram.getNumVars (p : QuadraticProgram) : Nat :=
  p.vars.length

section Dict

variable {α : Type} [DecidableEq α]

/-- Python `d.get(k)`: the value at the first occurrence of key `k`. -/
def dictGet (d : List (α × ℚ)) (k : α) : Option ℚ :=
  (d.find? (fun e => e.1 = k)).map (fun e => e.2)

/-- Python `d[k] = v`: replace the value at key `k` if present (keeping its
position, as Python dicts do), else append the new entry at the end. -/
def dictSet (d : List (α × ℚ)) (k : α) (v : ℚ) : List (α × ℚ) :=
  if d.any (fun e => decide (e.1 = k)) then
    d.map (fun e => if e.1 = k then (k, v) else e)
  else
    d ++ [(k, v)]

/-- The converter's accumulation idiom `d[k] = d.get(k, 0.0) + delta`
(lines 108 and 113 of the source). -/
def dictAdd (d : List (α × ℚ)) (k : α) (delta : ℚ) : List (α × ℚ) :=
  dictSet d k ((dictGet d k).getD 0 + delta)

/-- `to_dict()` of the external expression classes: only nonzero coefficients
are present in the returned dict. -/
def toDict (d : List (α × ℚ)) : List (α × ℚ) :=
  d.filter (fun e => decide (e.2 ≠ 0))

end Dict

/-! ### The special-constraint catalog and matcher

`SpecialConstraint` lives in `qiskit_optimization.problems.special_constraint`,
which is not under `src/`; only its constructor calls and method uses appear in
the converter. Its matching and binding behaviour is modelled from the spec
(§4.1, §4.2). The constructor arguments below are exactly those of the source's
`__init__` (lines 52–53): reference linear coefficient vector over the three
reference binary variables, comparison sense, right-hand side, penalty
constant, penalty linear vector, penalty quadratic matrix. The throwaway
3-variable reference problem passed as the first Python argument carries no
data beyond sizing and is omitted. -/

/-- Modelled from the spec (§3, §4.1): a special-constraint template over 3
reference variables, with its precomputed penalty decomposition. -/
structure SpecialConstraint where
  linear : List ℚ
  sense : CmpSense
  rhs : ℚ
  penalty_constant : ℚ
  penalty_linear : List ℚ
  penalty_quadratic : List (List ℚ)
  deriving DecidableEq, Repr

/-- Insert an entry into a key-sorted entry list, keeping it sorted by key. -/
def insertByKey (e : Nat × ℚ) : List (Nat × ℚ) → List (Nat × ℚ)
  | [] => [e]
  | f :: rest => if e.1 ≤ f.1 then e :: f :: rest else f :: insertByKey e rest

/-- The sorted (by variable index) list of nonzero entries of a constraint's
coefficient dict: its support with coefficient values, in variable-index
order. -/
def sortedSupport (c : LinearConstraint) : List (Nat × ℚ) :=
  (toDict c.linear).foldr insertByKey []

/-- The matched constraint's concrete variable indices, in index order: the
reference positions of the template are substituted by these. -/
def supportVars (c : LinearConstraint) : List Nat :=
  (sortedSupport c).map (fun e => e.1)

/-- Modelled from the spec (§4.2): `is_special_constraint(constraint)` — the
constraint's nonzero-coefficient support has the same count and the same
coefficient values as the template's (compared in variable-index order against
the template's reference order), the comparison sense is identical, and the
right-hand side equals the template's. -/
def SpecialConstraint.is_special_constraint (sc : SpecialConstraint)
    (c : LinearConstraint) : Bool :=
  (sortedSupport c).map (fun e => e.2) = sc.linear.filter (fun v => decide (v ≠ 0))
    && c.sense = sc.sense && c.rhs = sc.rhs

/-- Modelled from the spec (§4.2): the substitution of a matched constraint's
concrete variable indices for the template's reference positions: reference
position `k` goes to the `k`-th variable (in index order) of the constraint's
support. -/
def refSubst (c : LinearConstraint) (k : Nat) : Nat :=
  (supportVars c).getD k 0

/-- Modelled from the spec (§4.2): the template's penalty linear expression
bound to the matched constraint, as a dict (nonzero entries only) over the
constraint's concrete variable indices — the source reads this at line 106 as
`penalty_linear_expression.to_dict()`. -/
def SpecialConstraint.boundPenaltyLinear (sc : SpecialConstraint)
    (c : LinearConstraint) : List (Nat × ℚ) :=
  sc.penalty_linear.enum.filterMap (fun e =>
    if e.2 = 0 then none else some (refSubst c e.1, e.2))

/-- Modelled from the spec (§4.2): the template's penalty quadratic expression
bound to the matched constraint, as a dict (nonzero entries only) over
unordered pairs of the constraint's concrete variable indices — the source
reads this at line 111 as `penalty_quadratic_expression.to_dict()`. -/
def SpecialConstraint.boundPenaltyQuadratic (sc : SpecialConstraint)
    (c : LinearConstraint) : List ((Nat × Nat) × ℚ) :=
  (sc.penalty_quadratic.enum.map (fun r =>
    r.2.enum.filterMap (fun e =>
      if e.2 = 0 then none
      else some ((refSubst c r.1, refSubst c e.1), e.2)))).flatten

/-- The first catalog template (source line 52): `v0 + v1 ≤ 1` with penalty
decomposition offset 1, linear `[0,0,0]`, quadratic coefficient 1 on the
reference pair (0,1). -/
def patternA : SpecialConstraint :=
  ⟨[1, 1, 0], .le, 1, 1, [0, 0, 0], [[0, 1, 0], [0, 0, 0], [0, 0, 0]]⟩

/-- The second catalog template (source line 53): `v0 + v1 ≥ 1` with penalty
decomposition offset 1, linear `[-1,-1,0]`, quadratic coefficient 1 on the
reference pair (0,1). -/
def patternB : SpecialConstraint :=
  ⟨[1, 1, 0], .ge, 1, 1, [-1, -1, 0], [[0, 1, 0], [0, 0, 0], [0, 0, 0]]⟩

/-- `self._special_constraints` (source lines 52–53), in catalog order. -/
def specialConstraintList : List SpecialConstraint :=
  [patternA, patternB]

/-- The inner `for special_constraint in self._special_constraints … break`
loop of `convert` (lines 98–115): the first catalog template matching the
constraint, if any. -/
def findSpecial (c : LinearConstraint) : Option SpecialConstraint :=
  specialConstraintList.find? (fun sc => sc.is_special_constraint c)

/-! ### The converter -/

/-- The errors the converter can signal. `unsupportedVartype` and
`dimensionMismatch` are the two `QiskitOptimizationError`s raised at source
lines 88 and 187; `attributeError` is the Python `AttributeError` raised when
`interpret` dereferences a still-`None` `self._src` (line 186). -/
inductive QOError where
  | unsupportedVartype
  | dimensionMismatch
  | attributeError
  deriving DecidableEq, Repr

/-- `_auto_define_penalty` (source lines 136–171): if any linear constraint's
right-hand side or linear coefficient is a non-integral number, return the
default `1e5` (the source also logs a warning, which is not modelled);
otherwise the exact sum of 1, the absolute values of the objective's linear
coefficients and the absolute values of its quadratic coefficients. -/
def autoDefinePenalty (src : QuadraticProgram) : ℚ :=
  let default_penalty : ℚ := 100000
  let terms : List ℚ := src.linearConstraints.foldl
    (fun ts c => ts ++ (c.rhs :: (toDict c.linear).map (fun e => e.2))) []
  if terms.any (fun t => decide (t.den ≠ 1)) then
    default_penalty
  else
    let penalties : List ℚ :=
      1 :: ((toDict src.objective.linear).map (fun e => |e.2|)
        ++ (toDict src.objective.quadratic).map (fun e => |e.2|))
    penalties.foldl (· + ·) 0

/-- The per-variable body of the variable-copying loop (source lines 80–88):
continuous and integer variables keep their bounds, `binary_var` creates the
canonical bounds 0 and 1. The Python `else` arm raising
`QiskitOptimizationError` is unreachable here because `VarType` has exactly the
three supported kinds. -/
def convertVar (x : Variable) : Except QOError Variable :=
  match x.vartype with
  | .continuous => .ok ⟨x.name, .continuous, x.lowerbound, x.upperbound⟩
  | .binary => .ok ⟨x.name, .binary, 0, 1⟩
  | .integer => .ok ⟨x.name, .integer, x.lowerbound, x.upperbound⟩

/-- The variable-copying loop of `convert` (source lines 80–88), stopping at
the first unsupported variable. -/
def convertVarList : List Variable → Except QOError (List Variable)
  | [] => .ok []
  | x :: xs =>
    match convertVar x with
    | .ok v => (convertVarList xs).map (fun vs => v :: vs)
    | .error e => .error e

/-- The destination-objective accumulators of `convert` (source lines 91–93)
together with the destination linear-constraint list built by the
`else` arm of the matching loop (line 119). -/
structure ConvAcc where
  offset : ℚ
  linear : List (Nat × ℚ)
  quadratic : List ((Nat × Nat) × ℚ)
  constraints : List LinearConstraint
  deriving DecidableEq, Repr

/-- One iteration of the linear-constraint loop of `convert` (source lines
97–119): on the first matching template fold the bound penalty decomposition
into the objective accumulators, scaled by the sense multiplier and the penalty
coefficient; otherwise append the constraint (its coefficient dict re-read via
`to_dict()`) to the destination's linear constraints. -/
def convStep (sense : ℚ) (penalty : ℚ) (acc : ConvAcc) (c : LinearConstraint) :
    ConvAcc :=
  match findSpecial c with
  | some sc =>
    { acc with
      offset := acc.offset + sense * penalty * sc.penalty_constant
      linear := (sc.boundPenaltyLinear c).foldl
        (fun l e => dictAdd l e.1 (sense * penalty * e.2)) acc.linear
      quadratic := (sc.boundPenaltyQuadratic c).foldl
        (fun q e => dictAdd q e.1 (sense * penalty * e.2)) acc.quadratic }
  | none =>
    { acc with
      constraints := acc.constraints ++ [⟨toDict c.linear, c.sense, c.rhs, c.name⟩] }

/-- The body of `convert` (source lines 70–134) for a resolved penalty
coefficient: copy the variables, seed the objective accumulators from the
source objective, fold each linear constraint, copy the quadratic constraints
(their dicts re-read via `to_dict()`, line 124), and commit the objective under
the original sense. -/
def convertProblem (penalty : ℚ) (problem : QuadraticProgram) :
    Except QOError QuadraticProgram :=
  (convertVarList problem.vars).map (fun vs =>
    let sense : ℚ := (problem.objective.sense.value : ℚ)
    let start : ConvAcc :=
      ⟨problem.objective.constant, toDict problem.objective.linear,
        toDict problem.objective.quadratic, []⟩
    let acc := problem.linearConstraints.foldl (convStep sense penalty) start
    { name := problem.name
      vars := vs
      objective :=
        ⟨problem.objective.sense, acc.offset, acc.linear, acc.quadratic⟩
      linearConstraints := acc.constraints
      quadraticConstraints := problem.quadraticConstraints.map (fun c =>
        ⟨toDict c.linear, toDict c.quadratic, c.sense, c.rhs, c.name⟩) })

/-- The mutable instance state of a `SpecialConstraintToPenalty` converter:
`_penalty`, `_should_define_penalty`, `_src`, `_dst`. -/
structure SCPState where
  penalty : Option ℚ
  shouldDefinePenalty : Bool
  src : Option QuadraticProgram
  dst : Option QuadraticProgram
  deriving DecidableEq, Repr

/-- The `penalty` property setter (source lines 202–212): store the new value
and derive `_should_define_penalty` from its being `None`. -/
def setPenalty (s : SCPState) (p : Option ℚ) : SCPState :=
  { s with penalty := p, shouldDefinePenalty := p.isNone }

/-- `__init__` (source lines 37–53): `_src` and `_dst` start as `None` and the
penalty argument goes through the property setter. -/
def initState (penalty : Option ℚ) : SCPState :=
  setPenalty ⟨none, false, none, none⟩ penalty

/-- The penalty resolution of `convert` (source lines 74–77): the automatic
estimate when `_should_define_penalty` holds, else the stored `_penalty`
(which the setter invariant guarantees is non-`None` in that case). -/
def resolvePenalty (s : SCPState) (problem : QuadraticProgram) : ℚ :=
  if s.shouldDefinePenalty then autoDefinePenalty problem else s.penalty.getD 0

/-- The full `convert` method (source lines 56–134) acting on the instance
state: deep-copy the source (the identity on pure values), resolve the penalty,
build the destination, and record the penalty just used in `_penalty` (line
132) — without touching `_should_define_penalty`. -/
def convert (s : SCPState) (problem : QuadraticProgram) :
    SCPState × Except QOError QuadraticProgram :=
  let pen := resolvePenalty s problem
  match convertProblem pen problem with
  | .ok dst =>
    ({ s with src := some problem, dst := some dst, penalty := some pen }, .ok dst)
  | .error e =>
    ({ s with src := some problem, dst := none }, .error e)

/-- The `interpret` method (source lines 173–191): raise `AttributeError` when
no conversion has stored a source problem yet (Python dereferences the `None`
in `self._src.get_num_vars()`), raise the dimension-mismatch
`QiskitOptimizationError` when the vector length differs from the source's
variable count, and otherwise return the vector unchanged. -/
def interpret (s : SCPState) (x : List ℚ) : Except QOError (List ℚ) :=
  match s.src with
  | none => .error .attributeError
  | some src =>
    if x.length ≠ src.getNumVars then .error .dimensionMismatch else .ok x

/-! ### Derived forms used by the statements -/

/-- The value produced for one variable by the copying loop: the same variable,
except that `binary_var` gives a binary variable the canonical bounds 0
and 1. -/
def convertVarPure (x : Variable) : Variable :=
  match x.vartype with
  | .continuous => ⟨x.name, .continuous, x.lowerbound, x.upperbound⟩
  | .binary => ⟨x.name, .binary, 0, 1⟩
  | .integer => ⟨x.name, .integer, x.lowerbound, x.upperbound⟩

/-- The copied form of an unmatched linear constraint (source line 119). -/
def copyLC (c : LinearConstraint) : LinearConstraint :=
  ⟨toDict c.linear, c.sense, c.rhs, c.name⟩

/-- The copied form of a quadratic constraint (source line 124). -/
def copyQC (c : QuadraticConstraint) : QuadraticConstraint :=
  ⟨toDict c.linear, toDict c.quadratic, c.sense, c.rhs, c.name⟩

/-- The problem restricted to those linear constraints that match some catalog
template: used to express that unmatched constraints contribute nothing to the
destination objective. -/
def matchedOnly (p : QuadraticProgram) : QuadraticProgram :=
  { p with linearConstraints :=
      p.linearConstraints.filter (fun c => (findSpecial c).isSome) }

/-- A sequence of `convert` calls on one converter instance, threading the
instance state and collecting the penalty coefficient resolved (and used) by
each call. -/
def convertSeq (s : SCPState) : List QuadraticProgram → SCPState × List ℚ
  | [] => (s, [])
  | p :: ps =>
    let used := resolvePenalty s p
    let rest := convertSeq (convert s p).1 ps
    (rest.1, used :: rest.2)

/-- The objective accumulator state after the linear-constraint loop. -/
def convAccFor (pen : ℚ) (p : QuadraticProgram) : ConvAcc :=
  p.linearConstraints.foldl (convStep (p.objective.sense.value : ℚ) pen)
    ⟨p.objective.constant, toDict p.objective.linear,
      toDict p.objective.quadratic, []⟩

/-- The objective-accumulator components of a `ConvAcc` (everything except the
destination constraint list). -/
def objPart (a : ConvAcc) : ℚ × List (Nat × ℚ) × List ((Nat × Nat) × ℚ) :=
  (a.offset, a.linear, a.quadratic)

/-! ### Concrete problems used by the claims and witnesses -/

/-- Three binary variables, objective `minimize x0 + x1`, one linear constraint
`x0 + x1 ≤ 1` (the pattern-A problem of the spec's exact-absorption
property). -/
def probAmin : QuadraticProgram :=
  { name := "pA"
    vars := [⟨"x0", .binary, 0, 1⟩, ⟨"x1", .binary, 0, 1⟩, ⟨"x2", .binary, 0, 1⟩]
    objective := ⟨.minimize, 0, [(0, 1), (1, 1)], []⟩
    linearConstraints := [⟨[(0, 1), (1, 1)], .le, 1, "c0"⟩]
    quadraticConstraints := [] }

/-- The same problem with objective `maximize x0 + x1`. -/
def probAmax : QuadraticProgram :=
  { probAmin with objective := ⟨.maximize, 0, [(0, 1), (1, 1)], []⟩ }

/-- Objective `minimize 2*x0 + 3*x0*x1`, no constraints: the spec's integral
auto-penalty example. -/
def probAutoInt : QuadraticProgram :=
  { name := "pInt"
    vars := [⟨"x0", .binary, 0, 1⟩, ⟨"x1", .binary, 0, 1⟩]
    objective := ⟨.minimize, 0, [(0, 2)], [((0, 1), 3)]⟩
    linearConstraints := []
    quadraticConstraints := [] }

/-- The integral example plus a linear constraint with right-hand side `3/2`
(written `mkRat 3 2`): the spec's non-integral auto-penalty example. -/
def probAutoFrac : QuadraticProgram :=
  { probAutoInt with
    linearConstraints := [⟨[(0, 1)], .le, mkRat 3 2, "c0"⟩] }

/-- A problem with one matched constraint (`x0 + x1 ≤ 1`), one unmatched
constraint (`x0 + x1 + x2 ≤ 2`) and one quadratic constraint: used to witness
the pass-through claim. -/
def probMixed : QuadraticProgram :=
  { name := "pM"
    vars := [⟨"x0", .binary, 0, 1⟩, ⟨"x1", .binary, 0, 1⟩, ⟨"x2", .binary, 0, 1⟩]
    objective := ⟨.minimize, 0, [(0, 1)], []⟩
    linearConstraints :=
      [⟨[(0, 1), (1, 1)], .le, 1, "c0"⟩, ⟨[(0, 1), (1, 1), (2, 1)], .le, 2, "c1"⟩]
    quadraticConstraints := [⟨[(0, 1)], [((0, 1), 1)], .le, 1, "q0"⟩] }

/-- A constraint `x2 + x5 ≥ 1` over non-reference variable indices: used to
witness that the bound penalty decomposition lands on the matched constraint's
own indices. -/
def cGe25 : LinearConstraint :=
  ⟨[(2, 1), (5, 1)], .ge, 1, "w"⟩

/-! ### Helper lemmas -/

theorem convertVar_eq (x : Variable) : convertVar x = .ok (convertVarPure x) := by
  cases hx : x.vartype <;> simp [convertVar, convertVarPure, hx]

theorem convertVarList_eq (l : List Variable) :
    convertVarList l = .ok (l.map convertVarPure) := by
  induction l with
  | nil => rfl
  | cons x xs ih => simp [convertVarList, convertVar_eq, ih, Except.map]

theorem convertProblem_eq (pen : ℚ) (p : QuadraticProgram) :
    convertProblem pen p = .ok
      { name := p.name
        vars := p.vars.map convertVarPure
        objective := ⟨p.objective.sense, (convAccFor pen p).offset,
          (convAccFor pen p).linear, (convAccFor pen p).quadratic⟩
        linearConstraints := (convAccFor pen p).constraints
        quadraticConstraints := p.quadraticConstraints.map copyQC } := by
  unfold convertProblem
  rw [convertVarList_eq]
  rfl

theorem convert_snd_eq (s : SCPState) (p : QuadraticProgram) :
    (convert s p).2 = convertProblem (resolvePenalty s p) p := by
  unfold convert
  cases h : convertProblem (resolvePenalty s p) p <;> simp [h]

theorem convert_fst_src (s : SCPState) (p : QuadraticProgram) :
    (convert s p).1.src = some p := by
  unfold convert
  cases h : convertProblem (resolvePenalty s p) p <;> simp [h]

theorem convert_fst_mode (s : SCPState) (p : QuadraticProgram) :
    (convert s p).1.shouldDefinePenalty = s.shouldDefinePenalty := by
  unfold convert
  cases h : convertProblem (resolvePenalty s p) p <;> simp [h]

theorem convert_fst_penalty (s : SCPState) (p : QuadraticProgram) :
    (convert s p).1.penalty = some (resolvePenalty s p) := by
  simp [convert, convertProblem_eq]

theorem convStep_objPart_congr (se pen : ℚ) {a b : ConvAcc}
    (h : objPart a = objPart b) (c : LinearConstraint) :
    objPart (convStep se pen a c) = objPart (convStep se pen b c) := by
  simp [objPart, Prod.ext_iff] at h
  cases hf : findSpecial c <;>
    simp [convStep, hf, objPart, h.1, h.2.1, h.2.2]

theorem foldl_objPart_congr (se pen : ℚ) (cs : List LinearConstraint)
    {a b : ConvAcc} (h : objPart a = objPart b) :
    objPart (cs.foldl (convStep se pen) a) = objPart (cs.foldl (convStep se pen) b) := by
  induction cs generalizing a b with
  | nil => exact h
  | cons c cs ih => exact ih (convStep_objPart_congr se pen h c)

theorem convStep_unmatched_objPart (se pen : ℚ) (a : ConvAcc)
    {c : LinearConstraint} (hf : findSpecial c = none) :
    objPart (convStep se pen a c) = objPart a := by
  simp [convStep, hf, objPart]

theorem foldl_objPart_filter (se pen : ℚ) (cs : List LinearConstraint) (a : ConvAcc) :
    objPart (cs.foldl (convStep se pen) a) =
      objPart ((cs.filter (fun c => (findSpecial c).isSome)).foldl (convStep se pen) a) := by
  induction cs generalizing a with
  | nil => rfl
  | cons c cs ih =>
    cases hf : findSpecial c with
    | none =>
      rw [List.foldl_cons, List.filter_cons_of_neg (by simp [hf])]
      exact (foldl_objPart_congr se pen cs
        (convStep_unmatched_objPart se pen a hf)).trans (ih a)
    | some sc =>
      rw [List.foldl_cons, List.filter_cons_of_pos (by simp [hf]), List.foldl_cons]
      exact ih (convStep se pen a c)

theorem convStep_matched_constraints (se pen : ℚ) (a : ConvAcc)
    {c : LinearConstraint} {sc : SpecialConstraint} (hf : findSpecial c = some sc) :
    (convStep se pen a c).constraints = a.constraints := by
  simp [convStep, hf]

theorem foldl_constraints (se pen : ℚ) (cs : List LinearConstraint) (a : ConvAcc) :
    (cs.foldl (convStep se pen) a).constraints =
      a.constraints ++ (cs.filter (fun c => (findSpecial c).isNone)).map copyLC := by
  induction cs generalizing a with
  | nil => simp
  | cons c cs ih =>
    cases hf : findSpecial c with
    | none =>
      rw [List.foldl_cons, List.filter_cons_of_pos (by simp [hf]), ih]
      simp [convStep, hf, copyLC]
    | some sc =>
      rw [List.foldl_cons, List.filter_cons_of_neg (by simp [hf]), ih]
      rw [convStep_matched_constraints se pen a hf]

theorem toDict_eq_self {α : Type} [DecidableEq α] {l : List (α × ℚ)}
    (h : ∀ e ∈ l, e.2 ≠ 0) : toDict l = l :=
  List.filter_eq_self.mpr (fun e he => by simpa using h e he)

theorem copyLC_eq_self {c : LinearConstraint} (h : ∀ e ∈ c.linear, e.2 ≠ 0) :
    copyLC c = c := by
  cases c
  simp [copyLC, toDict_eq_self h]

theorem copyQC_eq_self {c : QuadraticConstraint}
    (h1 : ∀ e ∈ c.linear, e.2 ≠ 0) (h2 : ∀ e ∈ c.quadratic, e.2 ≠ 0) :
    copyQC c = c := by
  cases c
  simp [copyQC, toDict_eq_self h1, toDict_eq_self h2]

theorem terms_foldl (lcs : List LinearConstraint) (ts : List ℚ) :
    lcs.foldl (fun ts c => ts ++ (c.rhs :: (toDict c.linear).map (fun e => e.2))) ts
      = ts ++ lcs.flatMap (fun c => c.rhs :: (toDict c.linear).map (fun e => e.2)) := by
  induction lcs generalizing ts with
  | nil => simp
  | cons c cs ih => simp [ih]

theorem foldl_add_eq_sum (l : List ℚ) (a : ℚ) : l.foldl (· + ·) a = a + l.sum := by
  induction l generalizing a with
  | nil => simp
  | cons x xs ih => simp [ih, add_assoc]

theorem den_eq_one_of_zero {q : ℚ} (h : q = 0) : q.den = 1 := by
  rw [h]; rfl

theorem mem_insertByKey (e a : Nat × ℚ) (l : List (Nat × ℚ)) :
    a ∈ insertByKey e l ↔ a = e ∨ a ∈ l := by
  induction l with
  | nil => simp [insertByKey]
  | cons f fs ih =>
    by_cases h : e.1 ≤ f.1
    · simp [insertByKey, h]
    · simp [insertByKey, h, ih]
      tauto

theorem length_insertByKey (e : Nat × ℚ) (l : List (Nat × ℚ)) :
    (insertByKey e l).length = l.length + 1 := by
  induction l with
  | nil => rfl
  | cons f fs ih =>
    by_cases h : e.1 ≤ f.1 <;> simp [insertByKey, h, ih]

theorem mem_sortedSupport (c : LinearConstraint) (a : Nat × ℚ) :
    a ∈ sortedSupport c ↔ a ∈ toDict c.linear := by
  unfold sortedSupport
  induction toDict c.linear with
  | nil => simp
  | cons f fs ih => simp [mem_insertByKey, ih]

theorem length_sortedSupport (c : LinearConstraint) :
    (sortedSupport c).length = (toDict c.linear).length := by
  unfold sortedSupport
  induction toDict c.linear with
  | nil => rfl
  | cons f fs ih => simp [length_insertByKey, ih]

/-! ### The claims -/

/-- C1: for the 3-binary-variable problem with objective `minimize x0 + x1` and
single linear constraint `x0 + x1 ≤ 1`, conversion with penalty coefficient `p`
yields a destination with zero linear constraints, objective linear map
`{x0: 1, x1: 1}` unchanged, quadratic map `{(x0,x1): p}` and constant offset
`p`; under `maximize x0 + x1` the quadratic coefficient on `(x0,x1)` is `-p`
and the offset contribution is `-p` (sense multiplier +1 for Minimize, −1 for
Maximize). -/
theorem claimC1 (p : ℚ) :
    (convert (initState (some p)) probAmin).2 = .ok
      { name := "pA"
        vars := probAmin.vars
        objective := ⟨.minimize, p, [(0, 1), (1, 1)], [((0, 1), p)]⟩
        linearConstraints := []
        quadraticConstraints := [] } ∧
    (convert (initState (some p)) probAmax).2 = .ok
      { name := "pA"
        vars := probAmin.vars
        objective := ⟨.maximize, -p, [(0, 1), (1, 1)], [((0, 1), -p)]⟩
        linearConstraints := []
        quadraticConstraints := [] } := by
  constructor <;>
  · simp [convert, initState, setPenalty, resolvePenalty, convertProblem,
      convertVarList, convertVar, convStep, findSpecial, specialConstraintList,
      patternA, patternB, SpecialConstraint.is_special_constraint, sortedSupport,
      insertByKey, toDict, supportVars, refSubst,
      SpecialConstraint.boundPenaltyLinear, SpecialConstraint.boundPenaltyQuadratic,
      dictAdd, dictSet, dictGet, probAmin, probAmax, List.find?, List.filter,
      List.enum, Except.map, ObjSense.value]
    decide

/-- C5: for every problem on which `convert` succeeds, the destination has the
same variables as the source: same number, same order, identical names, types
and bounds. (The converter's `binary_var` call gives destination binary
variables the canonical bounds 0 and 1, so source binary variables are assumed
well formed, i.e. already carrying those bounds, as the external model
guarantees.) -/
theorem claimC5 (s : SCPState) (p : QuadraticProgram)
    (hb : ∀ x ∈ p.vars, x.vartype = VarType.binary →
      x.lowerbound = 0 ∧ x.upperbound = 1) :
    ((convert s p).2).map QuadraticProgram.vars = .ok p.vars := by
  rw [convert_snd_eq, convertProblem_eq]
  have h1 : ∀ x ∈ p.vars, convertVarPure x = x := by
    intro x hx
    cases x with
    | mk nm vt lb ub =>
      cases vt with
      | continuous => simp [convertVarPure]
      | integer => simp [convertVarPure]
      | binary =>
        obtain ⟨hlb, hub⟩ := hb _ hx rfl
        simp at hlb hub
        simp [convertVarPure, hlb, hub]
  have h2 : p.vars.map convertVarPure = p.vars := by
    conv_rhs => rw [← List.map_id p.vars]
    exact List.map_congr_left h1
  simp [Except.map, h2]

/-- Witness for C5 at a concrete problem. -/
theorem claimC5_witness :
    ((convert (initState (some 1)) probAmin).2).map QuadraticProgram.vars
      = .ok probAmin.vars :=
  claimC5 (initState (some 1)) probAmin (by decide)

/-- C6: after `convert` has been called on a problem `p`, `interpret` returns
any vector whose length equals the number of variables of `p` unchanged, and
fails with the dimension-mismatch `QiskitOptimizationError` on any vector of
any other length. -/
theorem claimC6 (s : SCPState) (p : QuadraticProgram) (v : List ℚ) :
    (v.length = p.getNumVars → interpret (convert s p).1 v = .ok v) ∧
    (v.length ≠ p.getNumVars → interpret (convert s p).1 v =
      .error .dimensionMismatch) := by
  have hsrc := convert_fst_src s p
  constructor <;> intro h <;> simp [interpret, hsrc, h]

/-- Witness for C6: a matching and a mismatched vector length against the
3-variable problem. -/
theorem claimC6_witness :
    interpret (convert (initState (some 1)) probAmin).1 [1, 0, 1] = .ok [1, 0, 1] ∧
    interpret (convert (initState (some 1)) probAmin).1 [1, 0] =
      .error .dimensionMismatch :=
  ⟨(claimC6 (initState (some 1)) probAmin [1, 0, 1]).1 (by decide),
   (claimC6 (initState (some 1)) probAmin [1, 0]).2 (by decide)⟩

/-- C9: `convert` fails with the unsupported-variable-type error exactly when
some variable's type lies outside Continuous, Binary and Integer — and since
the modelled variable-type universe consists of exactly those three kinds, it
never does: conversion always succeeds on such problems. -/
theorem claimC9 (s : SCPState) (p : QuadraticProgram) :
    (convert s p).2 = .error .unsupportedVartype ↔
      ∃ x ∈ p.vars, ¬(x.vartype = VarType.continuous ∨
        x.vartype = VarType.binary ∨ x.vartype = VarType.integer) := by
  rw [convert_snd_eq, convertProblem_eq]
  constructor
  · intro h
    exact absurd h (by simp)
  · rintro ⟨x, _, hcontra⟩
    cases hv : x.vartype <;> simp [hv] at hcontra

/-- C10: calling `interpret` on a freshly constructed converter, before any
`convert` call, fails with the `AttributeError` coming from dereferencing the
`None`-valued stored source problem — not with the documented
dimension-mismatch error — whatever the input vector and the configured
penalty. -/
theorem claimC10 (pen : Option ℚ) (v : List ℚ) :
    interpret (initState pen) v = .error .attributeError ∧
      QOError.attributeError ≠ QOError.dimensionMismatch :=
  ⟨rfl, by decide⟩

theorem convertSeq_explicit (q : ℚ) (ps : List QuadraticProgram) (s : SCPState)
    (hmode : s.shouldDefinePenalty = false) (hpen : s.penalty = some q) :
    (convertSeq s ps).2 = ps.map (fun _ => q) := by
  induction ps generalizing s with
  | nil => rfl
  | cons p ps ih =>
    have hres : resolvePenalty s p = q := by
      simp [resolvePenalty, hmode, hpen]
    have hmode2 : (convert s p).1.shouldDefinePenalty = false := by
      rw [convert_fst_mode, hmode]
    have hpen2 : (convert s p).1.penalty = some q := by
      rw [convert_fst_penalty, hres]
    simp [convertSeq, hres, ih _ hmode2 hpen2]

theorem convertSeq_auto (ps : List QuadraticProgram) (s : SCPState)
    (hmode : s.shouldDefinePenalty = true) :
    (convertSeq s ps).2 = ps.map autoDefinePenalty ∧
      (convertSeq s ps).1.shouldDefinePenalty = true := by
  induction ps generalizing s with
  | nil => exact ⟨rfl, hmode⟩
  | cons p ps ih =>
    have hres : resolvePenalty s p = autoDefinePenalty p := by
      simp [resolvePenalty, hmode]
    have hmode2 : (convert s p).1.shouldDefinePenalty = true := by
      rw [convert_fst_mode, hmode]
    obtain ⟨h1, h2⟩ := ih _ hmode2
    exact ⟨by simp [convertSeq, hres, h1], by simpa [convertSeq] using h2⟩

/-- C8: with an explicitly configured penalty, every `convert` call in a
sequence resolves exactly that value and never the estimate; with penalty
configured `None`, every call resolves the estimate freshly computed from that
call's own source problem, and the converter stays in auto-estimate mode even
though each call records the value it used in `_penalty`. -/
theorem claimC8 :
    (∀ (q : ℚ) (ps : List QuadraticProgram),
      (convertSeq (initState (some q)) ps).2 = ps.map (fun _ => q)) ∧
    (∀ ps : List QuadraticProgram,
      (convertSeq (initState none) ps).2 = ps.map autoDefinePenalty ∧
        (convertSeq (initState none) ps).1.shouldDefinePenalty = true) :=
  ⟨fun q ps => convertSeq_explicit q ps _ rfl rfl,
   fun ps => convertSeq_auto ps _ rfl⟩

theorem hasFloatTerm_iff (p : QuadraticProgram) :
    (p.linearConstraints.foldl
        (fun ts c => ts ++ (c.rhs :: (toDict c.linear).map (fun e => e.2))) []).any
        (fun t => decide (t.den ≠ 1)) = true ↔
      ∃ c ∈ p.linearConstraints, c.rhs.den ≠ 1 ∨ ∃ e ∈ c.linear, e.2.den ≠ 1 := by
  rw [terms_foldl]
  simp only [List.nil_append, List.any_eq_true, List.mem_flatMap, List.mem_cons,
    List.mem_map, decide_eq_true_eq]
  constructor
  · rintro ⟨t, ⟨c, hc, hct⟩, ht⟩
    refine ⟨c, hc, ?_⟩
    rcases hct with h | ⟨e, he, rfl⟩
    · exact Or.inl (h ▸ ht)
    · exact Or.inr ⟨e, (List.mem_filter.mp he).1, ht⟩
  · rintro ⟨c, hc, h | ⟨e, he, hden⟩⟩
    · exact ⟨c.rhs, ⟨c, hc, Or.inl rfl⟩, h⟩
    · refine ⟨e.2, ⟨c, hc, Or.inr ⟨e, ?_, rfl⟩⟩, hden⟩
      refine List.mem_filter.mpr ⟨he, ?_⟩
      simp
      intro h0
      exact hden (den_eq_one_of_zero h0)

/-- C3: the automatic penalty estimator returns the fixed default `1e5`
whenever some linear constraint's right-hand side or linear coefficient is a
non-integral number (the accompanying warning is logged, not raised, and is not
modelled), and otherwise returns 1 plus the sum of the absolute values of the
nonzero linear and quadratic objective coefficients. -/
theorem claimC3 :
    (∀ p : QuadraticProgram,
      (∃ c ∈ p.linearConstraints, c.rhs.den ≠ 1 ∨ ∃ e ∈ c.linear, e.2.den ≠ 1) →
        autoDefinePenalty p = 100000) ∧
    (∀ p : QuadraticProgram,
      (¬∃ c ∈ p.linearConstraints, c.rhs.den ≠ 1 ∨ ∃ e ∈ c.linear, e.2.den ≠ 1) →
        autoDefinePenalty p =
          1 + ((toDict p.objective.linear).map (fun e => |e.2|)).sum
            + ((toDict p.objective.quadratic).map (fun e => |e.2|)).sum) := by
  constructor <;> intro p h
  · simp only [autoDefinePenalty]
    rw [if_pos ((hasFloatTerm_iff p).mpr h)]
  · simp only [autoDefinePenalty]
    rw [if_neg (fun hc => h ((hasFloatTerm_iff p).mp hc))]
    rw [foldl_add_eq_sum]
    simp [add_assoc]

/-- Witness for C3: the non-integral example (`rhs = 3/2`) gets the default
`1e5`; the integral example `minimize 2*x0 + 3*x0*x1` gets `1 + 2 + 3 = 6`. -/
theorem claimC3_witness :
    autoDefinePenalty probAutoFrac = 100000 ∧ autoDefinePenalty probAutoInt = 6 :=
  ⟨claimC3.1 probAutoFrac (by decide),
   (claimC3.2 probAutoInt (by decide)).trans (by
     simp [probAutoInt, toDict]
     norm_num)⟩

/-- C4: every linear constraint matching no catalog template is copied
unchanged (same coefficients, sense, rhs, name, in order) into the
destination's linear constraints; the destination objective is the same as if
the unmatched constraints were absent from the source (they contribute nothing
to it, the penalty coefficient being fixed); and every quadratic constraint is
copied unchanged. The hypotheses are the external model's dict invariant that
stored coefficient entries are nonzero. -/
theorem claimC4 (s : SCPState) (p : QuadraticProgram)
    (hlc : ∀ c ∈ p.linearConstraints, ∀ e ∈ c.linear, e.2 ≠ 0)
    (hqc : ∀ c ∈ p.quadraticConstraints,
      (∀ e ∈ c.linear, e.2 ≠ 0) ∧ (∀ e ∈ c.quadratic, e.2 ≠ 0)) :
    ((convert s p).2).map QuadraticProgram.linearConstraints
        = .ok (p.linearConstraints.filter (fun c => (findSpecial c).isNone)) ∧
    ((convert s p).2).map QuadraticProgram.objective
        = (convertProblem (resolvePenalty s p) (matchedOnly p)).map
            QuadraticProgram.objective ∧
    ((convert s p).2).map QuadraticProgram.quadraticConstraints
        = .ok p.quadraticConstraints := by
  rw [convert_snd_eq, convertProblem_eq, convertProblem_eq]
  refine ⟨?_, ?_, ?_⟩
  · simp only [Except.map]
    have h1 : (convAccFor (resolvePenalty s p) p).constraints
        = (p.linearConstraints.filter (fun c => (findSpecial c).isNone)).map copyLC := by
      unfold convAccFor
      rw [foldl_constraints]
      simp
    rw [h1]
    have h2 : ∀ c ∈ p.linearConstraints.filter (fun c => (findSpecial c).isNone),
        copyLC c = c := fun c hc =>
      copyLC_eq_self (hlc c (List.mem_of_mem_filter hc))
    rw [List.map_congr_left h2]
    simp
  · simp only [Except.map, Except.ok.injEq]
    have hobj : objPart (convAccFor (resolvePenalty s p) p)
        = objPart (convAccFor (resolvePenalty s p) (matchedOnly p)) := by
      unfold convAccFor matchedOnly
      exact foldl_objPart_filter _ _ _ _
    simp only [objPart, Prod.ext_iff] at hobj
    simp [matchedOnly, hobj.1, hobj.2.1, hobj.2.2]
  · simp only [Except.map, Except.ok.injEq]
    have h2 : ∀ c ∈ p.quadraticConstraints, copyQC c = c := fun c hc =>
      copyQC_eq_self (hqc c hc).1 (hqc c hc).2
    rw [List.map_congr_left h2]
    simp

/-- Witness for C4 at a problem with one matched constraint, one unmatched
constraint and one quadratic constraint. -/
theorem claimC4_witness :
    ((convert (initState (some 2)) probMixed).2).map QuadraticProgram.linearConstraints
        = .ok (probMixed.linearConstraints.filter (fun c => (findSpecial c).isNone)) ∧
    ((convert (initState (some 2)) probMixed).2).map QuadraticProgram.objective
        = (convertProblem (resolvePenalty (initState (some 2)) probMixed)
            (matchedOnly probMixed)).map QuadraticProgram.objective ∧
    ((convert (initState (some 2)) probMixed).2).map QuadraticProgram.quadraticConstraints
        = .ok probMixed.quadraticConstraints :=
  claimC4 (initState (some 2)) probMixed (by decide) (by decide)

/-- C2: for every linear constraint matching a catalog template, the bound
penalty decomposition is expressed over the matched constraint's own concrete
variable indices: every key of the bound penalty linear map and both components
of every bound penalty quadratic key lie in the constraint's support, and the
support consists exactly of variables appearing in the constraint with a
nonzero coefficient. -/
theorem claimC2 (sc : SpecialConstraint) (c : LinearConstraint)
    (hsc : sc ∈ specialConstraintList)
    (hm : sc.is_special_constraint c = true) :
    (∀ e ∈ sc.boundPenaltyLinear c, e.1 ∈ supportVars c) ∧
    (∀ e ∈ sc.boundPenaltyQuadratic c,
      e.1.1 ∈ supportVars c ∧ e.1.2 ∈ supportVars c) ∧
    (∀ j ∈ supportVars c, ∃ v, (j, v) ∈ c.linear ∧ v ≠ 0) := by
  have hsup : ∀ j ∈ supportVars c, ∃ v, (j, v) ∈ c.linear ∧ v ≠ 0 := by
    intro j hj
    simp only [supportVars, List.mem_map] at hj
    obtain ⟨e, he, rfl⟩ := hj
    rw [mem_sortedSupport] at he
    have hmem := List.mem_filter.mp he
    refine ⟨e.2, ?_, by simpa using hmem.2⟩
    simpa using hmem.1
  simp only [SpecialConstraint.is_special_constraint, Bool.and_eq_true,
    decide_eq_true_eq] at hm
  have hlen2 : (supportVars c).length = 2 → ∃ a b, supportVars c = [a, b] :=
    fun h => List.length_eq_two.mp h
  simp only [specialConstraintList, List.mem_cons, List.not_mem_nil, or_false,
    List.mem_singleton] at hsc
  rcases hsc with rfl | rfl
  · -- pattern A
    have hfil : patternA.linear.filter (fun v => decide (v ≠ 0)) = [1, 1] := by decide
    rw [hfil] at hm
    have hlen : (supportVars c).length = 2 := by
      have := congrArg List.length hm.1.1
      simpa [supportVars] using this
    obtain ⟨a, b, hab⟩ := hlen2 hlen
    have hra : refSubst c 0 = a := by rw [refSubst, hab]; rfl
    have hrb : refSubst c 1 = b := by rw [refSubst, hab]; rfl
    have hbl : patternA.boundPenaltyLinear c = [] := rfl
    have hbq : patternA.boundPenaltyQuadratic c
        = [((refSubst c 0, refSubst c 1), 1)] := rfl
    refine ⟨?_, ?_, hsup⟩
    · rw [hbl]; intro e he; cases he
    · rw [hbq]
      intro e he
      rw [List.mem_singleton] at he
      subst he
      rw [hra, hrb, hab]
      exact ⟨by simp, by simp⟩
  · -- pattern B
    have hfil : patternB.linear.filter (fun v => decide (v ≠ 0)) = [1, 1] := by decide
    rw [hfil] at hm
    have hlen : (supportVars c).length = 2 := by
      have := congrArg List.length hm.1.1
      simpa [supportVars] using this
    obtain ⟨a, b, hab⟩ := hlen2 hlen
    have hra : refSubst c 0 = a := by rw [refSubst, hab]; rfl
    have hrb : refSubst c 1 = b := by rw [refSubst, hab]; rfl
    have hbl : patternB.boundPenaltyLinear c
        = [(refSubst c 0, -1), (refSubst c 1, -1)] := rfl
    have hbq : patternB.boundPenaltyQuadratic c
        = [((refSubst c 0, refSubst c 1), 1)] := rfl
    refine ⟨?_, ?_, hsup⟩
    · rw [hbl]
      intro e he
      rw [List.mem_cons, List.mem_singleton] at he
      rcases he with rfl | rfl
      · rw [hra, hab]; simp
      · rw [hrb, hab]; simp
    · rw [hbq]
      intro e he
      rw [List.mem_singleton] at he
      subst he
      rw [hra, hrb, hab]
      exact ⟨by simp, by simp⟩

/-- Witness for C2: pattern B matched against `x2 + x5 ≥ 1`, whose variable
indices 2 and 5 differ from the template's reference positions 0 and 1. -/
theorem claimC2_witness :
    (∀ e ∈ patternB.boundPenaltyLinear cGe25, e.1 ∈ supportVars cGe25) ∧
    (∀ e ∈ patternB.boundPenaltyQuadratic cGe25,
      e.1.1 ∈ supportVars cGe25 ∧ e.1.2 ∈ supportVars cGe25) ∧
    (∀ j ∈ supportVars cGe25, ∃ v, (j, v) ∈ cGe25.linear ∧ v ≠ 0) :=
  claimC2 patternB cGe25 (by decide) (by decide)

end QiskitOpt
